import Mathlib

/-!
Verification development for the proxy-pool allocator and reconciler of this
repository.  The definitions below are a shallow embedding of the TypeScript
source: the proxies table becomes a list of records, the drizzle select/update
statements become list traversals, timestamps are passed explicitly, and the
two remote calls of the reconciler (query and push of the remote proxy
configuration) become oracle parameters describing the observed remote
behaviour.  Database transactions are modelled as atomic store transitions,
matching the serializable-or-stronger isolation the store is assumed to
provide, so a set of concurrent transactions is modelled by the set of its
serializations.
-/

namespace ProxyPool

/-- Embedding of one row of the proxies table (src/db/schema, as used by
src/actions/proxy.ts and scripts/populate-proxies.ts).  Timestamps are
natural numbers. -/
structure ProxyRecord where
  id : String
  host : String
  port : String
  username : String
  password : String
  protocol : String
  isUsed : Bool
  assignedInstanceName : Option String
  isActive : Bool
  createdAt : Nat
  updatedAt : Nat
deriving DecidableEq

/-- The proxies table, rows in selection order. -/
abbrev Store := List ProxyRecord

/-- The eligibility test of the select inside assignUnusedProxy
(src/actions/proxy.ts lines 32-36): the where clause requires
isUsed = false and assignedInstanceName IS NULL.  Note that the source
places no condition on isActive. -/
def unusedAndUnassigned (r : ProxyRecord) : Bool :=
  !r.isUsed && r.assignedInstanceName.isNone

/-- Embedding of the ProxyAssignmentResult interface of src/actions/proxy.ts. -/
structure ProxyAssignmentResult where
  success : Bool
  proxy : Option ProxyRecord
  error : Option String
deriving DecidableEq

/-- Embedding of the result shape of releaseProxy in src/actions/proxy.ts. -/
structure ReleaseResult where
  success : Bool
  error : Option String
deriving DecidableEq

/-- The set clause of the update inside assignUnusedProxy
(src/actions/proxy.ts lines 43-51): isUsed := true,
assignedInstanceName := instanceName, updatedAt := now. -/
def claimUpdate (instanceName : String) (now : Nat) (r : ProxyRecord) : ProxyRecord :=
  { r with isUsed := true, assignedInstanceName := some instanceName, updatedAt := now }

/-- Embedding of assignUnusedProxy (src/actions/proxy.ts lines 24-70).
Inside one transaction the first row satisfying the eligibility test is
selected; if none exists the failure result is returned and the table is
untouched; otherwise the row with the selected id is updated and the
post-update row is returned. -/
def assignUnusedProxy (instanceName : String) (now : Nat) (s : Store) :
    ProxyAssignmentResult × Store :=
  match s.find? unusedAndUnassigned with
  | none =>
      ({ success := false, proxy := none,
         error := some "Nenhum proxy nao utilizado disponivel." }, s)
  | some unusedProxy =>
      ({ success := true, proxy := some (claimUpdate instanceName now unusedProxy),
         error := none },
       s.map fun r => if r.id = unusedProxy.id then claimUpdate instanceName now r else r)

/-- The set clause of the update inside releaseProxy
(src/actions/proxy.ts lines 81-89): isUsed := false,
assignedInstanceName := null, updatedAt := now. -/
def releaseUpdate (now : Nat) (r : ProxyRecord) : ProxyRecord :=
  { r with isUsed := false, assignedInstanceName := none, updatedAt := now }

/-- Row filter of the update inside releaseProxy: assignedInstanceName equals
the given instance name. -/
def ownedBy (instanceName : String) (r : ProxyRecord) : Bool :=
  decide (r.assignedInstanceName = some instanceName)

/-- Embedding of releaseProxy (src/actions/proxy.ts lines 78-101).  Every row
whose assignedInstanceName equals the argument is cleared; the call reports
success exactly when at least one row was updated, and the failure branch
returns the not-found message of the source. -/
def releaseProxy (instanceName : String) (now : Nat) (s : Store) :
    ReleaseResult × Store :=
  (if s.any (ownedBy instanceName) then
    { success := true, error := none }
   else
    { success := false,
      error := some "Proxy nao encontrado para a instancia ou ja liberado." },
   s.map fun r =>
     if r.assignedInstanceName = some instanceName then releaseUpdate now r else r)

/-- One store operation of the pool allocator, with the timestamp the
operation writes into updatedAt. -/
inductive PoolOp where
  | assign (owner : String) (now : Nat)
  | release (owner : String) (now : Nat)
deriving DecidableEq

/-- Effect of one pool operation on the store. -/
def applyOp (s : Store) : PoolOp → Store
  | .assign o n => (assignUnusedProxy o n s).2
  | .release o n => (releaseProxy o n s).2

/-- Effect of a finite sequence of pool operations, one serialization of a
set of transactional calls. -/
def applyOps (s : Store) (ops : List PoolOp) : Store :=
  ops.foldl applyOp s

/-- One serialization of a set of assign calls: each call is a pair of owner
name and timestamp; the list of results is collected in order. -/
def runAssigns (s : Store) : List (String × Nat) → List ProxyAssignmentResult × Store
  | [] => ([], s)
  | c :: rest =>
      let step := assignUnusedProxy c.1 c.2 s
      let next := runAssigns step.2 rest
      (step.1 :: next.1, next.2)

/-- Ids of the records returned by the successful calls of a result list. -/
def successfulIds (results : List ProxyAssignmentResult) : List String :=
  results.filterMap fun res =>
    if res.success then res.proxy.map ProxyRecord.id else none

/-- Invariant I1 of the spec: a record is marked used exactly when it has an
assigned owner. -/
def I1 (s : Store) : Prop :=
  ∀ r ∈ s, r.isUsed = r.assignedInstanceName.isSome

/-- Two records witness a violation of invariant I2 when both are active and
they share an assigned owner. -/
def conflictingOwner (a b : ProxyRecord) : Bool :=
  a.isActive && b.isActive && a.assignedInstanceName.isSome
    && (a.assignedInstanceName == b.assignedInstanceName)

/-- Invariant I2 of the spec: at most one active record carries any given
assigned owner. -/
def I2 (s : Store) : Prop :=
  s.Pairwise fun a b => conflictingOwner a b = false

/-- Remote proxy configuration as observed by the reconciler; only the
enabled flag is inspected by the source. -/
structure RemoteProxyConfig where
  enabled : Bool
deriving DecidableEq

/-- A call made against the pool allocator, recorded for the reconciliation
no-op and compensation properties. -/
inductive PoolCall where
  | assign (owner : String)
  | release (owner : String)
deriving DecidableEq

/-- Result of one reconciliation pass: the boolean the source returns, the
resulting store, and the pool allocator calls performed, in order. -/
structure ReconcileOutcome where
  ok : Bool
  store : Store
  poolCalls : List PoolCall
deriving DecidableEq

/-- Embedding of handleAutomaticProxyAssignment
(src/actions/instance/handle-proxy-assignment.ts lines 62-117).  The remote
query is an oracle: an error value models a thrown fetch (caught by the outer
catch, returning false with no pool call); a null or disabled configuration
leads to an assign; on assign success the remote push is attempted, and on
push failure the claim is released before returning false. -/
def handleAutomaticProxyAssignment
    (findResult : Except String (Option RemoteProxyConfig)) (setProxySuccess : Bool)
    (instanceName : String) (now : Nat) (s : Store) : ReconcileOutcome :=
  match findResult with
  | .error _ => { ok := false, store := s, poolCalls := [] }
  | .ok proxyData =>
      if (match proxyData with
          | some pd => pd.enabled
          | none => false) then
        { ok := true, store := s, poolCalls := [] }
      else
        let assignStep := assignUnusedProxy instanceName now s
        if assignStep.1.success && assignStep.1.proxy.isSome then
          if setProxySuccess then
            { ok := true, store := assignStep.2, poolCalls := [.assign instanceName] }
          else
            { ok := false,
              store := (releaseProxy instanceName now assignStep.2).2,
              poolCalls := [.assign instanceName, .release instanceName] }
        else
          { ok := false, store := assignStep.2, poolCalls := [.assign instanceName] }

/-- Embedding of the proxy-automation block of getInstanceStatus
(src/actions/instance/connection-status.ts lines 138-227).  The block runs
only for the open status; a non-ok proxy query response skips everything; a
null response body throws on the enabled access and is caught, performing no
pool call; a disabled configuration triggers assign, and a failed remote push
after a successful assign triggers the compensating release.  The function
returns the store and the pool calls performed. -/
def getInstanceStatusProxyAutomation (newStatus : String) (proxyResponseOk : Bool)
    (proxyData : Option RemoteProxyConfig) (setProxySuccess : Bool)
    (instanceName : String) (now : Nat) (s : Store) : Store × List PoolCall :=
  if newStatus = "open" then
    if proxyResponseOk then
      match proxyData with
      | none => (s, [])
      | some pd =>
          if !pd.enabled then
            let assignStep := assignUnusedProxy instanceName now s
            if assignStep.1.success && assignStep.1.proxy.isSome then
              if setProxySuccess then (assignStep.2, [.assign instanceName])
              else ((releaseProxy instanceName now assignStep.2).2,
                    [.assign instanceName, .release instanceName])
            else (assignStep.2, [.assign instanceName])
          else (s, [])
    else (s, [])
  else (s, [])

/-- Embedding of the status dispatch of fetchInstanceDetails
(src/unnamed/part_002 lines 172-184): for the open status the automatic
assignment helper runs; for close or disconnected the proxy of the instance
is released unconditionally; any other status performs no pool call. -/
def fetchInstanceDetailsProxyAutomation (connectionStatus : String)
    (findResult : Except String (Option RemoteProxyConfig)) (setProxySuccess : Bool)
    (instanceName : String) (now : Nat) (s : Store) : Store × List PoolCall :=
  if connectionStatus = "open" then
    let outcome := handleAutomaticProxyAssignment findResult setProxySuccess instanceName now s
    (outcome.store, outcome.poolCalls)
  else if connectionStatus = "close" ∨ connectionStatus = "disconnected" then
    ((releaseProxy instanceName now s).2, [.release instanceName])
  else (s, [])

/-- Record constructor used by concrete stores in counterexamples and
witnesses; credential fields are fixed as in scripts/populate-proxies.ts. -/
def mkRecord (i : String) (used : Bool) (owner : Option String) (active : Bool) :
    ProxyRecord :=
  { id := i, host := "res.proxy-seller.com", port := "10000", username := "u",
    password := "w", protocol := "socks5", isUsed := used,
    assignedInstanceName := owner, isActive := active, createdAt := 0, updatedAt := 0 }

/-- A store holding a single record that is administratively inactive yet
unused and unassigned. -/
def inactiveFreeStore : Store := [mkRecord "p1" false none false]

/-- A store holding one free active record and one record claimed by the
instance named i1. -/
def wPool : Store := [mkRecord "w1" false none true, mkRecord "w2" true (some "i1") true]

/-- A store in which every record is already claimed. -/
def wExhausted : Store := [mkRecord "e1" true (some "i1") true]

/-- A store holding a single record claimed by the instance named i1. -/
def cexAssignedStore : Store := [mkRecord "p1" true (some "i1") true]

/-- A store holding two free active records. -/
def cexTwoFree : Store := [mkRecord "a" false none true, mkRecord "b" false none true]

/-- Records with id equal to the given string are not claim-eligible in the
store. -/
def idClaimed (x : String) (s : Store) : Prop :=
  ∀ r ∈ s, r.id = x → unusedAndUnassigned r = false

/-- The fields of a record that neither store operation writes. -/
def sameImmutableFields (r r2 : ProxyRecord) : Prop :=
  r2.id = r.id ∧ r2.host = r.host ∧ r2.port = r.port ∧ r2.protocol = r.protocol
    ∧ r2.username = r.username ∧ r2.password = r.password ∧ r2.isActive = r.isActive
    ∧ r2.createdAt = r.createdAt

end ProxyPool

namespace ProxyPool

theorem claimUpdate_id (o : String) (n : Nat) (r : ProxyRecord) :
    (claimUpdate o n r).id = r.id := rfl

theorem releaseUpdate_id (n : Nat) (r : ProxyRecord) :
    (releaseUpdate n r).id = r.id := rfl

theorem unusedAndUnassigned_claimUpdate (o : String) (n : Nat) (r : ProxyRecord) :
    unusedAndUnassigned (claimUpdate o n r) = false := by
  simp [unusedAndUnassigned, claimUpdate]

/-- C6: if the remote proxy configuration exists with the enabled flag set,
reconciliation of an open instance performs zero pool allocator calls, leaves
the store untouched, and reports success, on both reconciliation paths. -/
theorem reconcile_noop_when_enabled (setOk : Bool) (name : String) (now : Nat)
    (s : Store) :
    handleAutomaticProxyAssignment (Except.ok (some { enabled := true })) setOk name now s
      = { ok := true, store := s, poolCalls := [] }
    ∧ getInstanceStatusProxyAutomation "open" true (some { enabled := true }) setOk
        name now s = (s, []) := by
  constructor
  · rfl
  · rfl

/-- C8: when no row satisfies the eligibility test, assignUnusedProxy returns
the non-fatal failure result carrying the no-proxy-available message, with a
null proxy, and the store is unchanged. -/
theorem assign_no_proxy_available (s : Store) (o : String) (n : Nat)
    (h : s.find? unusedAndUnassigned = none) :
    (assignUnusedProxy o n s).1.success = false
    ∧ (assignUnusedProxy o n s).1.proxy = none
    ∧ (assignUnusedProxy o n s).1.error = some "Nenhum proxy nao utilizado disponivel."
    ∧ (assignUnusedProxy o n s).2 = s := by
  simp [assignUnusedProxy, h]

theorem assign_no_proxy_available_witness :
    (assignUnusedProxy "i2" 5 wExhausted).1.success = false
    ∧ (assignUnusedProxy "i2" 5 wExhausted).1.proxy = none
    ∧ (assignUnusedProxy "i2" 5 wExhausted).1.error
        = some "Nenhum proxy nao utilizado disponivel."
    ∧ (assignUnusedProxy "i2" 5 wExhausted).2 = wExhausted :=
  assign_no_proxy_available wExhausted "i2" 5 (by decide)

/-- C2, failing input: the code claims a record with isActive set to false.
The store of one inactive, unused, unassigned record is claimable: the call
succeeds, returns the inactive record, and assigns it, although invariant I3
of the spec says an inactive record is never eligible. -/
theorem assign_claims_inactive_record :
    (assignUnusedProxy "i1" 0 inactiveFreeStore).1.success = true
    ∧ ((assignUnusedProxy "i1" 0 inactiveFreeStore).1.proxy.map ProxyRecord.isActive)
        = some false
    ∧ ((assignUnusedProxy "i1" 0 inactiveFreeStore).1.proxy.map ProxyRecord.id)
        = some "p1"
    ∧ ∀ r ∈ (assignUnusedProxy "i1" 0 inactiveFreeStore).2,
        r.isActive = false ∧ r.isUsed = true ∧ r.assignedInstanceName = some "i1" := by
  decide

/-- C1, counterexample to the claim as stated: a store whose count of
available records in the sense of the claim (active, unused, unassigned) is
zero still lets one assign call succeed, because the source does not filter
on isActive. -/
theorem assign_succeeds_beyond_active_available :
    inactiveFreeStore.countP (fun r => r.isActive && unusedAndUnassigned r) = 0
    ∧ ((runAssigns inactiveFreeStore [("i1", 0)]).1.filter
        (fun res => res.success)).length = 1 := by
  decide

theorem assign_store_none (o : String) (n : Nat) (s : Store)
    (h : s.find? unusedAndUnassigned = none) :
    (assignUnusedProxy o n s).2 = s := by
  simp [assignUnusedProxy, h]

theorem assign_store_some (o : String) (n : Nat) (s : Store) (u : ProxyRecord)
    (h : s.find? unusedAndUnassigned = some u) :
    (assignUnusedProxy o n s).2
      = s.map fun r => if r.id = u.id then claimUpdate o n r else r := by
  simp [assignUnusedProxy, h]

theorem assign_result_some (o : String) (n : Nat) (s : Store) (u : ProxyRecord)
    (h : s.find? unusedAndUnassigned = some u) :
    (assignUnusedProxy o n s).1
      = { success := true, proxy := some (claimUpdate o n u), error := none } := by
  simp [assignUnusedProxy, h]

theorem release_result_eq (o : String) (n : Nat) (s : Store) :
    (releaseProxy o n s).1
      = if s.any (ownedBy o) then { success := true, error := none }
        else { success := false,
               error := some "Proxy nao encontrado para a instancia ou ja liberado." } := rfl

theorem release_store_eq (o : String) (n : Nat) (s : Store) :
    (releaseProxy o n s).2
      = s.map fun r =>
          if r.assignedInstanceName = some o then releaseUpdate n r else r := rfl

theorem claim_ite_id (x o : String) (n : Nat) (r : ProxyRecord) :
    (if r.id = x then claimUpdate o n r else r).id = r.id := by
  by_cases hc : r.id = x <;> simp [hc, claimUpdate]

theorem release_ite_id (o : String) (n : Nat) (r : ProxyRecord) :
    (if r.assignedInstanceName = some o then releaseUpdate n r else r).id = r.id := by
  by_cases hc : r.assignedInstanceName = some o <;> simp [hc, releaseUpdate]

theorem list_map_self {α : Type} (f : α → α) :
    ∀ l : List α, (∀ a ∈ l, f a = a) → l.map f = l
  | [], _ => rfl
  | a :: t, h => by
      rw [List.map_cons, h a (List.mem_cons_self a t), list_map_self f t ?_]
      intro b hb
      exact h b (List.mem_cons_of_mem a hb)

/-- C7: if the instance x holds a claimed record, the first release succeeds,
an immediately following release for x returns the not-found result, and the
second release leaves the store exactly as the first release left it. -/
theorem release_idempotent (s : Store) (x : String) (n₁ n₂ : Nat)
    (h : s.any (ownedBy x) = true) :
    (releaseProxy x n₁ s).1.success = true
    ∧ (releaseProxy x n₂ (releaseProxy x n₁ s).2).1.success = false
    ∧ (releaseProxy x n₂ (releaseProxy x n₁ s).2).2 = (releaseProxy x n₁ s).2 := by
  have hmem : ∀ r ∈ (releaseProxy x n₁ s).2, r.assignedInstanceName ≠ some x := by
    intro r hr
    rw [release_store_eq] at hr
    obtain ⟨r₀, _, rfl⟩ := List.mem_map.mp hr
    by_cases hc : r₀.assignedInstanceName = some x
    · simp [hc, releaseUpdate]
    · simp [hc]
  have hany : (releaseProxy x n₁ s).2.any (ownedBy x) = false := by
    rw [List.any_eq_false]
    intro r hr
    simp [ownedBy, hmem r hr]
  refine ⟨by rw [release_result_eq, h]; rfl, by rw [release_result_eq, hany]; rfl, ?_⟩
  rw [release_store_eq]
  exact list_map_self _ _ fun r hr => if_neg (hmem r hr)

theorem release_idempotent_witness :
    (releaseProxy "i1" 1 wPool).1.success = true
    ∧ (releaseProxy "i1" 2 (releaseProxy "i1" 1 wPool).2).1.success = false
    ∧ (releaseProxy "i1" 2 (releaseProxy "i1" 1 wPool).2).2
        = (releaseProxy "i1" 1 wPool).2 :=
  release_idempotent wPool "i1" 1 2 (by decide)

theorem I1_preserved_assign (o : String) (n : Nat) (s : Store) (h : I1 s) :
    I1 (assignUnusedProxy o n s).2 := by
  cases hfind : s.find? unusedAndUnassigned with
  | none => rw [assign_store_none o n s hfind]; exact h
  | some u =>
      rw [assign_store_some o n s u hfind]
      intro r hr
      obtain ⟨r₀, hr₀, rfl⟩ := List.mem_map.mp hr
      by_cases hc : r₀.id = u.id
      · simp [hc, claimUpdate]
      · simpa [hc] using h r₀ hr₀

theorem I1_preserved_release (o : String) (n : Nat) (s : Store) (h : I1 s) :
    I1 (releaseProxy o n s).2 := by
  rw [release_store_eq]
  intro r hr
  obtain ⟨r₀, hr₀, rfl⟩ := List.mem_map.mp hr
  by_cases hc : r₀.assignedInstanceName = some o
  · simp [hc, releaseUpdate]
  · simpa [hc] using h r₀ hr₀

/-- C3: invariant I1 (a record is marked used exactly when it carries an
assigned owner) holds after every finite sequence of assign and release
operations started from a store satisfying I1. -/
theorem invariant_I1_preserved (s : Store) (ops : List PoolOp) (h : I1 s) :
    I1 (applyOps s ops) := by
  induction ops generalizing s with
  | nil => exact h
  | cons op rest ih =>
      show I1 (applyOps (applyOp s op) rest)
      cases op with
      | assign o n => exact ih _ (I1_preserved_assign o n s h)
      | release o n => exact ih _ (I1_preserved_release o n s h)

theorem invariant_I1_preserved_witness :
    I1 (applyOps wPool
      [PoolOp.assign "i2" 1, PoolOp.release "i1" 2, PoolOp.release "i2" 3]) :=
  invariant_I1_preserved wPool
    [PoolOp.assign "i2" 1, PoolOp.release "i1" 2, PoolOp.release "i2" 3]
    (by unfold I1; decide)

/-- C10: both store operations write only the isUsed, assignedInstanceName
and updatedAt fields.  The result store is pointwise related to the input
store: every record keeps its id, host, port, protocol, username, password,
isActive and createdAt fields, and a record not selected by the operation
(not the claimed row for assign, not owned by the released instance for
release) is entirely unchanged. -/
theorem frame_condition_assign_release (s : Store) (o : String) (n : Nat) :
    List.Forall₂
      (fun r r2 => sameImmutableFields r r2
        ∧ ((∀ u, s.find? unusedAndUnassigned = some u → r.id ≠ u.id) → r2 = r))
      s (assignUnusedProxy o n s).2
    ∧ List.Forall₂
      (fun r r2 => sameImmutableFields r r2
        ∧ (r.assignedInstanceName ≠ some o → r2 = r))
      s (releaseProxy o n s).2 := by
  constructor
  · cases hfind : s.find? unusedAndUnassigned with
    | none =>
        rw [assign_store_none o n s hfind, List.forall₂_same]
        intro r _
        exact ⟨by simp [sameImmutableFields], fun _ => rfl⟩
    | some u =>
        rw [assign_store_some o n s u hfind, List.forall₂_map_right_iff,
          List.forall₂_same]
        intro r _
        by_cases hc : r.id = u.id
        · refine ⟨by simp [hc, claimUpdate, sameImmutableFields], fun hall => ?_⟩
          exact absurd hc (hall u rfl)
        · exact ⟨by simp [hc, sameImmutableFields], fun _ => by simp [hc]⟩
  · rw [release_store_eq, List.forall₂_map_right_iff, List.forall₂_same]
    intro r _
    by_cases hc : r.assignedInstanceName = some o
    · exact ⟨by simp [hc, releaseUpdate, sameImmutableFields], fun hne => absurd hc hne⟩
    · exact ⟨by simp [hc, sameImmutableFields], fun _ => by simp [hc]⟩

theorem claimed_then_released_free (s : Store) (name : String) (n₁ n₂ : Nat)
    (u : ProxyRecord) (h : s.find? unusedAndUnassigned = some u) :
    ∀ r ∈ (releaseProxy name n₂ (assignUnusedProxy name n₁ s).2).2, r.id = u.id →
      r.isUsed = false ∧ r.assignedInstanceName = none := by
  intro r hr hid
  rw [release_store_eq, assign_store_some name n₁ s u h, List.map_map] at hr
  obtain ⟨r₀, _, rfl⟩ := List.mem_map.mp hr
  have hid₀ : r₀.id = u.id := by
    rw [Function.comp_apply, release_ite_id, claim_ite_id] at hid
    exact hid
  simp [Function.comp_apply, hid₀, claimUpdate, releaseUpdate]

/-- C5: when reconciliation of an open instance performs a successful assign
and the remote push fails, the claim is released before failure is reported:
the handler returns false, the pool calls are exactly assign followed by
release, and every record carrying the claimed id ends unused and unassigned;
the same compensation happens on the getInstanceStatus path. -/
theorem compensation_releases_claim (s : Store) (name : String) (now : Nat)
    (u : ProxyRecord) (h : s.find? unusedAndUnassigned = some u) :
    (handleAutomaticProxyAssignment (Except.ok none) false name now s).ok = false
    ∧ (handleAutomaticProxyAssignment (Except.ok none) false name now s).poolCalls
        = [PoolCall.assign name, PoolCall.release name]
    ∧ (∀ r ∈ (handleAutomaticProxyAssignment (Except.ok none) false name now s).store,
        r.id = u.id → r.isUsed = false ∧ r.assignedInstanceName = none)
    ∧ (getInstanceStatusProxyAutomation "open" true (some { enabled := false })
        false name now s).2 = [PoolCall.assign name, PoolCall.release name]
    ∧ (∀ r ∈ (getInstanceStatusProxyAutomation "open" true (some { enabled := false })
        false name now s).1,
        r.id = u.id → r.isUsed = false ∧ r.assignedInstanceName = none) := by
  have hres := assign_result_some name now s u h
  have hhandle : handleAutomaticProxyAssignment (Except.ok none) false name now s
      = { ok := false,
          store := (releaseProxy name now (assignUnusedProxy name now s).2).2,
          poolCalls := [PoolCall.assign name, PoolCall.release name] } := by
    simp [handleAutomaticProxyAssignment, hres]
  have hstatus : getInstanceStatusProxyAutomation "open" true
        (some { enabled := false }) false name now s
      = ((releaseProxy name now (assignUnusedProxy name now s).2).2,
         [PoolCall.assign name, PoolCall.release name]) := by
    simp [getInstanceStatusProxyAutomation, hres]
  refine ⟨by rw [hhandle], by rw [hhandle], ?_, by rw [hstatus], ?_⟩
  · rw [hhandle]
    exact claimed_then_released_free s name now now u h
  · rw [hstatus]
    exact claimed_then_released_free s name now now u h

theorem compensation_releases_claim_witness :
    (handleAutomaticProxyAssignment (Except.ok none) false "i9" 7 wPool).ok = false
    ∧ (handleAutomaticProxyAssignment (Except.ok none) false "i9" 7 wPool).poolCalls
        = [PoolCall.assign "i9", PoolCall.release "i9"] := by
  have h := compensation_releases_claim wPool "i9" 7 (mkRecord "w1" false none true)
    (by decide)
  exact ⟨h.1, h.2.1⟩

/-- C9 (amended): on the fetchInstanceDetails reconciliation path, observing
the close or disconnected status triggers an unconditional release of the
instance proxy, for every remote observation and store; the getInstanceStatus
reconciliation path performs no pool allocator call for those statuses. -/
theorem release_on_disconnect_via_fetch_details (st : String)
    (findResult : Except String (Option RemoteProxyConfig)) (setOk : Bool)
    (name : String) (now : Nat) (s : Store)
    (h : st = "close" ∨ st = "disconnected") :
    fetchInstanceDetailsProxyAutomation st findResult setOk name now s
      = ((releaseProxy name now s).2, [PoolCall.release name])
    ∧ getInstanceStatusProxyAutomation st true (some { enabled := false }) setOk
        name now s = (s, []) := by
  rcases h with h | h <;> subst h <;> exact ⟨rfl, rfl⟩

theorem release_on_disconnect_witness :
    fetchInstanceDetailsProxyAutomation "disconnected" (Except.ok none) true "i1" 3
        wExhausted
      = ((releaseProxy "i1" 3 wExhausted).2, [PoolCall.release "i1"])
    ∧ getInstanceStatusProxyAutomation "disconnected" true (some { enabled := false })
        true "i1" 3 wExhausted = (wExhausted, []) :=
  release_on_disconnect_via_fetch_details "disconnected" (Except.ok none) true "i1" 3
    wExhausted (Or.inr rfl)

theorem unusedAndUnassigned_claim_ite (x o : String) (n : Nat) (r : ProxyRecord)
    (h : unusedAndUnassigned (if r.id = x then claimUpdate o n r else r) = true) :
    unusedAndUnassigned r = true := by
  by_cases hc : r.id = x
  · rw [if_pos hc, unusedAndUnassigned_claimUpdate] at h
    exact absurd h (by simp)
  · rwa [if_neg hc] at h

theorem countP_claim_map_le (x o : String) (n : Nat) (t : Store) :
    (t.map fun r => if r.id = x then claimUpdate o n r else r).countP
        unusedAndUnassigned
      ≤ t.countP unusedAndUnassigned := by
  rw [List.countP_map]
  apply List.countP_mono_left
  intro r _ h
  exact unusedAndUnassigned_claim_ite x o n r (by simpa using h)

theorem countP_after_claim (o : String) (n : Nat) :
    ∀ (s : Store) (u : ProxyRecord), s.find? unusedAndUnassigned = some u →
      (s.map fun r => if r.id = u.id then claimUpdate o n r else r).countP
          unusedAndUnassigned + 1
        ≤ s.countP unusedAndUnassigned := by
  intro s
  induction s with
  | nil => intro u h; simp at h
  | cons a t ih =>
      intro u h
      by_cases ha : unusedAndUnassigned a = true
      · rw [List.find?_cons_of_pos _ ha] at h
        obtain rfl : a = u := by injection h
        rw [List.map_cons, List.countP_cons, List.countP_cons, if_pos rfl,
          unusedAndUnassigned_claimUpdate, ha]
        have hle := countP_claim_map_le a.id o n t
        simp only [Bool.false_eq_true, if_false, if_true]
        omega
      · have ha2 : unusedAndUnassigned a = false := by
          rwa [Bool.not_eq_true] at ha
        rw [List.find?_cons_of_neg _ (by simp [ha2])] at h
        have hfa : unusedAndUnassigned
            (if a.id = u.id then claimUpdate o n a else a) = false := by
          by_cases hc : a.id = u.id
          · rw [if_pos hc, unusedAndUnassigned_claimUpdate]
          · rwa [if_neg hc]
        rw [List.map_cons, List.countP_cons, List.countP_cons, hfa, ha2]
        have hle := ih u h
        simp only [Bool.false_eq_true, if_false]
        omega

theorem idClaimed_assign (x o : String) (n : Nat) (s : Store)
    (h : idClaimed x s) : idClaimed x (assignUnusedProxy o n s).2 := by
  cases hfind : s.find? unusedAndUnassigned with
  | none => rw [assign_store_none o n s hfind]; exact h
  | some u =>
      rw [assign_store_some o n s u hfind]
      intro r hr hid
      obtain ⟨r₀, hr₀, rfl⟩ := List.mem_map.mp hr
      by_cases hc : r₀.id = u.id
      · rw [if_pos hc]
        exact unusedAndUnassigned_claimUpdate o n r₀
      · rw [if_neg hc] at hid ⊢
        exact h r₀ hr₀ hid

theorem idClaimed_after_claim (o : String) (n : Nat) (s : Store) (u : ProxyRecord)
    (h : s.find? unusedAndUnassigned = some u) :
    idClaimed u.id (assignUnusedProxy o n s).2 := by
  rw [assign_store_some o n s u h]
  intro r hr hid
  obtain ⟨r₀, hr₀, rfl⟩ := List.mem_map.mp hr
  by_cases hc : r₀.id = u.id
  · rw [if_pos hc]
    exact unusedAndUnassigned_claimUpdate o n r₀
  · rw [if_neg hc] at hid ⊢
    exact absurd hid hc

theorem runAssigns_cons (s : Store) (c : String × Nat) (rest : List (String × Nat)) :
    runAssigns s (c :: rest)
      = ((assignUnusedProxy c.1 c.2 s).1
            :: (runAssigns (assignUnusedProxy c.1 c.2 s).2 rest).1,
         (runAssigns (assignUnusedProxy c.1 c.2 s).2 rest).2) := rfl

theorem not_mem_successfulIds (x : String) :
    ∀ (calls : List (String × Nat)) (s : Store), idClaimed x s →
      x ∉ successfulIds (runAssigns s calls).1
  | [], s, _ => by simp [runAssigns, successfulIds]
  | c :: rest, s, h => by
      rw [runAssigns_cons]
      cases hfind : s.find? unusedAndUnassigned with
      | none =>
          have hres : (assignUnusedProxy c.1 c.2 s).1.success = false := by
            simp [assignUnusedProxy, hfind]
          have hs2 : (assignUnusedProxy c.1 c.2 s).2 = s :=
            assign_store_none _ _ _ hfind
          rw [show successfulIds ((assignUnusedProxy c.1 c.2 s).1
                :: (runAssigns (assignUnusedProxy c.1 c.2 s).2 rest).1)
              = successfulIds (runAssigns (assignUnusedProxy c.1 c.2 s).2 rest).1 by
            simp [successfulIds, List.filterMap_cons, hres], hs2]
          exact not_mem_successfulIds x rest s h
      | some u =>
          have hres := assign_result_some c.1 c.2 s u hfind
          have hu : u ∈ s := List.mem_of_find?_eq_some hfind
          have hpu : unusedAndUnassigned u = true := List.find?_some hfind
          have hxu : x ≠ u.id := by
            intro hx
            have := h u hu (by rw [hx])
            rw [this] at hpu
            exact absurd hpu (by simp)
          rw [show successfulIds ((assignUnusedProxy c.1 c.2 s).1
                :: (runAssigns (assignUnusedProxy c.1 c.2 s).2 rest).1)
              = u.id :: successfulIds (runAssigns (assignUnusedProxy c.1 c.2 s).2 rest).1 by
            simp [successfulIds, List.filterMap_cons, hres, claimUpdate]]
          intro hmem
          rcases List.mem_cons.mp hmem with hx | hx
          · exact hxu hx
          · exact not_mem_successfulIds x rest _ (idClaimed_assign x c.1 c.2 s h) hx

/-- C1 (amended): for every serialization of a set of assign calls executed
against a store holding N claim-eligible records, where eligibility is the
condition the source actually selects on (isUsed false and
assignedInstanceName null, with no isActive requirement), at most N of the
calls succeed and no two successful calls return a record with the same id.
Transactions are modelled as atomic, per the serializable isolation the store
contract assumes, so concurrent executions are exactly the serializations. -/
theorem assign_serialization_exclusive (s : Store) (calls : List (String × Nat)) :
    ((runAssigns s calls).1.filter (fun res => res.success)).length
        ≤ s.countP unusedAndUnassigned
    ∧ (successfulIds (runAssigns s calls).1).Nodup := by
  induction calls generalizing s with
  | nil => simp [runAssigns, successfulIds]
  | cons c rest ih =>
      rw [runAssigns_cons]
      cases hfind : s.find? unusedAndUnassigned with
      | none =>
          have hres : (assignUnusedProxy c.1 c.2 s).1.success = false := by
            simp [assignUnusedProxy, hfind]
          have hs2 : (assignUnusedProxy c.1 c.2 s).2 = s :=
            assign_store_none _ _ _ hfind
          obtain ⟨ih1, ih2⟩ := ih (assignUnusedProxy c.1 c.2 s).2
          constructor
          · rw [List.filter_cons, if_neg (by simp [hres])]
            rw [hs2] at ih1 ⊢
            exact ih1
          · rw [show successfulIds ((assignUnusedProxy c.1 c.2 s).1
                  :: (runAssigns (assignUnusedProxy c.1 c.2 s).2 rest).1)
                = successfulIds (runAssigns (assignUnusedProxy c.1 c.2 s).2 rest).1 by
              simp [successfulIds, List.filterMap_cons, hres]]
            exact ih2
      | some u =>
          have hres := assign_result_some c.1 c.2 s u hfind
          have hcount : (assignUnusedProxy c.1 c.2 s).2.countP unusedAndUnassigned + 1
              ≤ s.countP unusedAndUnassigned := by
            rw [assign_store_some c.1 c.2 s u hfind]
            exact countP_after_claim c.1 c.2 s u hfind
          obtain ⟨ih1, ih2⟩ := ih (assignUnusedProxy c.1 c.2 s).2
          constructor
          · rw [List.filter_cons, if_pos (by simp [hres])]
            rw [List.length_cons]
            omega
          · rw [show successfulIds ((assignUnusedProxy c.1 c.2 s).1
                  :: (runAssigns (assignUnusedProxy c.1 c.2 s).2 rest).1)
                = u.id :: successfulIds
                    (runAssigns (assignUnusedProxy c.1 c.2 s).2 rest).1 by
              simp [successfulIds, List.filterMap_cons, hres, claimUpdate]]
            exact List.nodup_cons.mpr
              ⟨not_mem_successfulIds u.id rest _
                  (idClaimed_after_claim c.1 c.2 s u hfind), ih2⟩

theorem conflictingOwner_true (a b : ProxyRecord) (h : conflictingOwner a b = true) :
    a.isActive = true ∧ b.isActive = true
    ∧ a.assignedInstanceName.isSome = true
    ∧ a.assignedInstanceName = b.assignedInstanceName := by
  simp only [conflictingOwner, Bool.and_eq_true, beq_iff_eq] at h
  exact ⟨h.1.1.1, h.1.1.2, h.1.2, h.2⟩

/-- C4, counterexample to the claim as stated: a store of two free active
records satisfies I2, yet two successive successful assign calls for the same
owner leave two active records assigned to that owner, violating I2.  The
source claims any eligible record regardless of the owner already holding
one, exactly the low-level allocator behaviour the spec itself documents in
its scenario section. -/
theorem double_assign_breaks_I2 :
    I2 cexTwoFree
    ∧ ¬ I2 (applyOps cexTwoFree [PoolOp.assign "i1" 1, PoolOp.assign "i1" 2]) := by
  unfold I2
  exact ⟨by decide, by decide⟩

/-- C4 (amended): release always preserves invariant I2; assign preserves I2
provided the record ids are distinct and the requesting owner holds no active
record at call time.  Without the latter condition a direct second assign for
an owner claims a second record, as the counterexample shows. -/
theorem I2_preserved_conditionally (s : Store) (o : String) (n : Nat) (h2 : I2 s) :
    I2 (releaseProxy o n s).2
    ∧ ((s.map fun r => r.id).Nodup →
        (∀ r ∈ s, ¬(r.isActive = true ∧ r.assignedInstanceName = some o)) →
        I2 (assignUnusedProxy o n s).2) := by
  constructor
  · rw [release_store_eq]
    unfold I2 at h2 ⊢
    rw [List.pairwise_map]
    refine h2.imp ?_
    intro a b hab
    by_cases hca : a.assignedInstanceName = some o
    · rw [if_pos hca]
      simp [conflictingOwner, releaseUpdate]
    · rw [if_neg hca]
      by_cases hcb : b.assignedInstanceName = some o
      · rw [if_pos hcb]
        rcases hao : a.assignedInstanceName with _ | y <;>
          simp [conflictingOwner, releaseUpdate, hao]
      · rw [if_neg hcb]
        exact hab
  · intro hnodup hfresh
    cases hfind : s.find? unusedAndUnassigned with
    | none => rw [assign_store_none o n s hfind]; exact h2
    | some u =>
        rw [assign_store_some o n s u hfind]
        unfold I2 at h2 ⊢
        rw [List.pairwise_map]
        have hnodup2 : List.Pairwise (fun a b => a ≠ b) (s.map fun r => r.id) :=
          hnodup
        have hne : s.Pairwise fun a b => a.id ≠ b.id :=
          List.pairwise_map.mp hnodup2
        have hcomb := h2.and hne
        refine List.Pairwise.imp_of_mem ?_ hcomb
        intro a b ha hb hab
        obtain ⟨hconf, hneid⟩ := hab
        by_cases hca : a.id = u.id
        · rw [if_pos hca]
          by_cases hcb : b.id = u.id
          · exact absurd (hca.trans hcb.symm) hneid
          · rw [if_neg hcb, Bool.eq_false_iff]
            intro hc
            obtain ⟨_, hb2, _, hb4⟩ := conflictingOwner_true _ _ hc
            exact hfresh b hb ⟨hb2, hb4.symm⟩
        · rw [if_neg hca]
          by_cases hcb : b.id = u.id
          · rw [if_pos hcb, Bool.eq_false_iff]
            intro hc
            obtain ⟨ha1, _, _, ha4⟩ := conflictingOwner_true _ _ hc
            exact hfresh a ha ⟨ha1, ha4⟩
          · rw [if_neg hcb]
            exact hconf

theorem I2_preserved_conditionally_witness :
    I2 (releaseProxy "i2" 5 wPool).2 ∧ I2 (assignUnusedProxy "i2" 5 wPool).2 := by
  have h := I2_preserved_conditionally wPool "i2" 5 (by unfold I2; decide)
  exact ⟨h.1, h.2 (by decide) (by decide)⟩

/-- C9, counterexample to the claim as stated: the getInstanceStatus
reconciliation path, observing the close status for an instance that holds a
claimed record, performs zero pool allocator calls and leaves the record
claimed; release is not called. -/
theorem status_close_performs_no_release :
    getInstanceStatusProxyAutomation "close" true (some { enabled := false }) true
      "i1" 0 cexAssignedStore = (cexAssignedStore, []) := by
  decide

end ProxyPool
